import Mathlib

/-!
# Verification of the libminizinc flattening core

A shallow embedding of the parameter evaluator (`src/lib/eval_par.cpp`),
the integer bounds computation (`ComputeIntBounds`), the environment
failure protocol (`EnvI::fail`, `src/lib/flatten.cpp`), the flattening
of par expressions, comprehensions and lets
(`src/lib/flatten/flatten_par.cpp`, `flatten_comp.cpp`, `flatten_let.cpp`),
the par array-access evaluator, and the JSON lexer string automaton
(`src/lib/json_parser.cpp`).

The embedding covers the expression fragment exercised by the properties
under verification: scalar literals, evaluated set literals, the absent
value `<>`, identifiers of flat decision variables, array literals,
primitive binary/unary operators, if-then-else, and unresolved calls.
C++ machine integers backing `IntVal` are arbitrary precision (bignum),
so integers are modelled by `Int`; `FloatVal` is modelled by `Rat`,
which is faithful for the control-flow decisions the code takes on
floats (the only float test in scope is comparison with zero).
Source locations carried by C++ exceptions are dropped; the message
strings are kept.
-/

namespace MiniZinc

/-- Base value classes of the MiniZinc `Type` object restricted to the
fragment: par int, bool, float, string, set of int, opt int (hosting the
absent literal `<>`, whose C++ type is `opt bot`), arrays, and annotation
types.  Variability (`par`/`var`) is tracked separately by `isParE`,
mirroring the `Type::isPar()` flag stored by the typechecker. -/
inductive Ty where
  | tint
  | tbool
  | tfloat
  | tstring
  | tsetInt
  | toptInt
  | tarr
  deriving DecidableEq, Repr

/-- Binary operator tags (`BinOpType`) of the fragment. -/
inductive BOp where
  | plus
  | minus
  | mult
  | pow
  | idiv
  | mod
  | fdiv
  | impl
  | band
  deriving DecidableEq, Repr

/-- Unary operator tags (`UnOpType`) of the fragment. -/
inductive UOp where
  | uplus
  | uminus
  deriving DecidableEq, Repr

/-- Expressions of the embedded fragment.  Every composite node carries
the `Type` the typechecker stored on it, as in the C++ AST; literal
nodes have their intrinsic type.  `setLit` is an evaluated `SetLit`
(one whose `isv()` is non-null), carried as the ordered range list of
its `IntSetVal`.  `varId` is an `Id` referring to a flat decision
variable declaration without right-hand side, carrying the declared
domain (`nullptr` modelled as `none`).  `call` is a `Call` whose `decl`
is unresolved in the fragment (function items are not modelled). -/
inductive Expr where
  | intLit (v : Int)
  | floatLit (v : Rat)
  | boolLit (b : Bool)
  | stringLit (s : String)
  | setLit (isv : List (Int × Int))
  | absent
  | varId (dom : Option (List (Int × Int)))
  | arrayLit (es : List Expr)
  | binOp (ty : Ty) (op : BOp) (l r : Expr)
  | unOp (ty : Ty) (op : UOp) (arg : Expr)
  | ite (ty : Ty) (c t e : Expr)
  | call (ty : Ty) (id : String) (args : List Expr)

namespace Expr

/-- The `Type` stored on an expression node (`Expression::type()`). -/
def ty : Expr → Ty
  | .intLit _ => .tint
  | .floatLit _ => .tfloat
  | .boolLit _ => .tbool
  | .stringLit _ => .tstring
  | .setLit _ => .tsetInt
  | .absent => .toptInt
  | .varId _ => .tint
  | .arrayLit _ => .tarr
  | .binOp t _ _ _ => t
  | .unOp t _ _ => t
  | .ite t _ _ _ => t
  | .call t _ _ => t

end Expr

mutual

/-- The `Type::isPar()` flag of the type stored on a node: a node is par
iff it contains no decision variable (`varId`).  This mirrors how the
typechecker computes the variability it stores. -/
def isParE : Expr → Bool
  | .varId _ => false
  | .arrayLit es => isParEList es
  | .binOp _ _ l r => isParE l && isParE r
  | .unOp _ _ a => isParE a
  | .ite _ c t e => isParE c && isParE t && isParE e
  | .call _ _ args => isParEList args
  | _ => true

/-- `isParE` over a list of subexpressions. -/
def isParEList : List Expr → Bool
  | [] => true
  | a :: rest => isParE a && isParEList rest

end

mutual

/-- Well-typedness of the stored types, as the typechecker guarantees on
entry to the evaluator: operator nodes carry the type determined by
their operands, if-then-else conditions are bool and branches agree with
the node type (an int branch may sit under an opt-int node, the
coercion the typechecker allows for `<>`), and calls are outside the
well-typed fragment because function declarations are not modelled. -/
def WT : Expr → Bool
  | .arrayLit es => WTList es
  | .binOp t op l r =>
    WT l && WT r &&
      (match op with
       | .plus | .minus | .mult | .pow =>
         (l.ty = .tint && r.ty = .tint && t = .tint) ||
         (l.ty = .tfloat && r.ty = .tfloat && t = .tfloat)
       | .idiv | .mod => l.ty = .tint && r.ty = .tint && t = .tint
       | .fdiv => l.ty = .tfloat && r.ty = .tfloat && t = .tfloat
       | .impl | .band => l.ty = .tbool && r.ty = .tbool && t = .tbool)
  | .unOp t _ a =>
    WT a && ((a.ty = .tint && t = .tint) || (a.ty = .tfloat && t = .tfloat))
  | .ite t c b1 b2 =>
    WT c && WT b1 && WT b2 && c.ty = .tbool &&
      (t = .tint || t = .tbool || t = .tfloat || t = .tstring ||
       t = .tsetInt || t = .toptInt) &&
      (b1.ty = t || (t = .toptInt && b1.ty = .tint)) &&
      (b2.ty = t || (t = .toptInt && b2.ty = .tint))
  | .call _ _ _ => false
  | _ => true

/-- `WT` over a list of subexpressions. -/
def WTList : List Expr → Bool
  | [] => true
  | a :: rest => WT a && WTList rest

end

/-- The two evaluator exception classes in scope: `ResultUndefinedError`
(well-defined runtime undefinedness) and `EvalError` (hard error).
Locations are dropped, messages kept. -/
inductive EvalExn where
  | resultUndefined (msg : String)
  | evalError (msg : String)
  deriving DecidableEq, Repr

/-- `IntVal::pow`.  The body of `IntVal::pow` is not under `src/`
(only its caller in `eval_int_internal` is); for a non-negative exponent
it is the usual power, and the negative-exponent case (reached only for
non-zero base, see the guard in `eval_int_internal`) is the truncated
rational power: `±1` for base `±1`, `0` otherwise. -/
def intPow (v0 v1 : Int) : Int :=
  if 0 ≤ v1 then v0 ^ v1.toNat
  else if v0 = 1 then 1
  else if v0 = -1 then (-1 : Int) ^ (-v1).toNat
  else 0

/-- `std::pow` on `FloatVal` operands as used by `eval_float` for
`BOT_POW`.  Floats are modelled by `Rat`; the power is modelled for
integral exponents (negative exponents of zero give `0`, as the C++
double `pow` result `inf` is outside the rational model); fractional
exponents, which the fragment never produces, give `0`. -/
def floatPow (v0 v1 : Rat) : Rat :=
  if v1.den = 1 then
    if 0 ≤ v1.num then v0 ^ v1.num.toNat
    else if v0 = 0 then 0 else (v0 ^ (-v1.num).toNat)⁻¹
  else 0

/-- The `allFlat` element test of `eval_par`'s array case
(src/lib/eval_par.cpp:2235): an element is flat if it is an `IntLit`,
`FloatLit`, `BoolLit`, or a `SetLit` whose `isv()` is computed (every
`setLit` of the fragment is). -/
def isFlatLit : Expr → Bool
  | .intLit _ | .floatLit _ | .boolLit _ | .setLit _ => true
  | _ => false

mutual

/-- `eval_bool` (src/lib/eval_par.cpp:1272).  A `BoolLit` evaluates to
its value; if-then-else follows the first true condition; a boolean
binary operator evaluates its sides with C++ short-circuiting, and a
`ResultUndefinedError` raised below a boolean binary operator is caught
and turned into `false`.  All other fragment nodes are not bool
expressions (for `varId`, `eval_id` finds a declaration with neither
value nor fixed domain and raises an `EvalError`). -/
def eval_bool : Expr → Except EvalExn Bool
  | .boolLit b => .ok b
  | .ite _ c t e => do
    if (← eval_bool c) then eval_bool t else eval_bool e
  | .binOp _ op l r =>
    if l.ty = .tbool ∧ r.ty = .tbool then
      let inner : Except EvalExn Bool :=
        match op with
        | .band => do
          if (← eval_bool l) then eval_bool r else pure false
        | .impl => do
          if !(← eval_bool l) then pure true else eval_bool r
        | _ => .error (.evalError "not a bool expression")
      match inner with
      | .error (.resultUndefined _) => .ok false
      | other => other
    else .error (.evalError "not a bool expression")
  | .varId _ => .error (.evalError "undefined identifier")
  | .call _ _ _ => .error (.evalError "undeclared function")
  | _ => .error (.evalError "not a bool expression")

/-- `eval_int_internal` (src/lib/eval_par.cpp:1830).  A bool-typed
expression is coerced (`false → 0`, `true → 1`) before anything else;
otherwise the switch on the node kind (`eval_int_switch`) runs. -/
def eval_int_internal (e : Expr) : Except EvalExn Int :=
  if e.ty = .tbool then
    (eval_bool e).map (fun b => if b then 1 else 0)
  else
    eval_int_switch e

/-- The expression-kind switch of `eval_int_internal`: an `IntLit`
evaluates to its value; if-then-else follows the first true condition;
binary operators: `+`, `-`, `*` are exact bignum arithmetic, `^` with
base zero and negative exponent raises undefined, `div` and `mod` with
zero divisor raise undefined (`IntVal` division truncates towards
zero). -/
def eval_int_switch : Expr → Except EvalExn Int
  | .intLit v => .ok v
  | .ite _ c t el => do
    if (← eval_bool c) then eval_int_internal t else eval_int_internal el
  | .binOp _ op l r => do
    let v0 ← eval_int_internal l
    let v1 ← eval_int_internal r
    match op with
    | .plus => .ok (v0 + v1)
    | .minus => .ok (v0 - v1)
    | .mult => .ok (v0 * v1)
    | .pow =>
      if v0 = 0 ∧ v1 < 0 then
        .error (.resultUndefined "negative power of zero is undefined")
      else .ok (intPow v0 v1)
    | .idiv =>
      if v1 = 0 then .error (.resultUndefined "division by zero")
      else .ok (v0.tdiv v1)
    | .mod =>
      if v1 = 0 then .error (.resultUndefined "division by zero")
      else .ok (v0.tmod v1)
    | _ => .error (.evalError "not an integer expression")
  | .unOp _ op a => do
    let v0 ← eval_int_internal a
    match op with
    | .uplus => .ok v0
    | .uminus => .ok (-v0)
  | .varId _ => .error (.evalError "undefined identifier")
  | .call _ _ _ => .error (.evalError "undeclared function")
  | _ => .error (.evalError "not an integer expression")

/-- `eval_float` (src/lib/eval_par.cpp:1971).  Int- and bool-typed
expressions are coerced before anything else; otherwise the switch on
the node kind (`eval_float_switch`) runs. -/
def eval_float (e : Expr) : Except EvalExn Rat :=
  if e.ty = .tint then
    (eval_int_internal e).map (fun v => (v : Rat))
  else if e.ty = .tbool then
    (eval_bool e).map (fun b => if b then 1 else 0)
  else
    eval_float_switch e

/-- The expression-kind switch of `eval_float`: a `FloatLit` evaluates
to its value; if-then-else follows the first true condition; `+`, `-`,
`*`, `^` are evaluated directly and `/` with zero divisor raises
undefined. -/
def eval_float_switch : Expr → Except EvalExn Rat
  | .floatLit v => .ok v
  | .ite _ c t el => do
    if (← eval_bool c) then eval_float t else eval_float el
  | .binOp _ op l r => do
    let v0 ← eval_float l
    let v1 ← eval_float r
    match op with
    | .plus => .ok (v0 + v1)
    | .minus => .ok (v0 - v1)
    | .mult => .ok (v0 * v1)
    | .pow => .ok (floatPow v0 v1)
    | .fdiv =>
      if v1 = 0 then .error (.resultUndefined "division by zero")
      else .ok (v0 / v1)
    | _ => .error (.evalError "not a float expression")
  | .unOp _ op a => do
    let v0 ← eval_float a
    match op with
    | .uplus => .ok v0
    | .uminus => .ok (-v0)
  | .varId _ => .error (.evalError "undefined identifier")
  | .call _ _ _ => .error (.evalError "undeclared function")
  | _ => .error (.evalError "not a float expression")

/-- `eval_string` (fragment): a `StringLit` evaluates to its value and
if-then-else follows the first true condition; other fragment nodes are
not string expressions. -/
def eval_string : Expr → Except EvalExn String
  | .stringLit s => .ok s
  | .ite _ c t e => do
    if (← eval_bool c) then eval_string t else eval_string e
  | .varId _ => .error (.evalError "undefined identifier")
  | .call _ _ _ => .error (.evalError "undeclared function")
  | _ => .error (.evalError "not a string expression")

/-- `eval_intset` (fragment): an evaluated `SetLit` returns its
`IntSetVal` range list directly (src/lib/eval_par.cpp:944) and
if-then-else follows the first true condition. -/
def eval_intset : Expr → Except EvalExn (List (Int × Int))
  | .setLit isv => .ok isv
  | .ite _ c t e => do
    if (← eval_bool c) then eval_intset t else eval_intset e
  | .varId _ => .error (.evalError "undefined identifier")
  | .call _ _ _ => .error (.evalError "undeclared function")
  | _ => .error (.evalError "not a set expression")

/-- `eval_par` (src/lib/eval_par.cpp:2215).  The outer dispatch:
the absent identifier `<>` returns itself, an identifier referring to a
declaration without a value returns itself, string literals return
themselves, array literals are evaluated elementwise; all other nodes
dispatch on the stored type: par set, int, bool, float and string
expressions are wrapped into the corresponding literal; the remaining
nodes take the inner switch (`eval_par_inner`). -/
def eval_par : Expr → Except EvalExn Expr
  | .absent => .ok .absent
  | .varId d => .ok (.varId d)
  | .stringLit s => .ok (.stringLit s)
  | .arrayLit es => (eval_par_arr es).map .arrayLit
  | e =>
    if isParE e then
      if e.ty = .tsetInt then (eval_intset e).map .setLit
      else if e.ty = .tint then (eval_int_internal e).map .intLit
      else if e.ty = .tbool then (eval_bool e).map .boolLit
      else if e.ty = .tfloat then (eval_float e).map .floatLit
      else if e.ty = .tstring then (eval_string e).map .stringLit
      else eval_par_inner e
    else
      eval_par_inner e

/-- The inner switch of `eval_par` (src/lib/eval_par.cpp:2354): an
if-then-else with a par bool condition follows its branch, operator and
call nodes are rebuilt over the recursively evaluated children, and
everything else returns itself. -/
def eval_par_inner : Expr → Except EvalExn Expr
  | .ite t c b1 b2 =>
    if c.ty = .tbool ∧ isParE c then do
      if (← eval_bool c) then eval_par b1 else eval_par b2
    else do
      .ok (.ite t (← eval_par c) (← eval_par b1) (← eval_par b2))
  | .binOp t op l r => do
    .ok (.binOp t op (← eval_par l) (← eval_par r))
  | .unOp t op a => do
    .ok (.unOp t op (← eval_par a))
  | .call t id args => do
    .ok (.call t id (← eval_par_args args))
  | e => .ok e

/-- Elementwise evaluation of an array literal's elements
(src/lib/eval_par.cpp:2229): elements that already are flat literals
(`isFlatLit`) are kept, the rest are evaluated with `eval_par`.
(The C++ `allFlat` path returns the array node unchanged; elementwise
this is the same array.) -/
def eval_par_arr : List Expr → Except EvalExn (List Expr)
  | [] => .ok []
  | a :: rest => do
    let a' ← if isFlatLit a then pure a else eval_par a
    .ok (a' :: (← eval_par_arr rest))

/-- `eval_par` mapped over the arguments of an unresolved call
(src/lib/eval_par.cpp:2390). -/
def eval_par_args : List Expr → Except EvalExn (List Expr)
  | [] => .ok []
  | a :: rest => do
    .ok ((← eval_par a) :: (← eval_par_args rest))

end

/-- The canonical literal kinds named by the specification:
`IntLit`, `FloatLit`, `BoolLit`, `StringLit`, `SetLit`, `ArrayLit`. -/
def isCanonLit : Expr → Bool
  | .intLit _ | .floatLit _ | .boolLit _ | .stringLit _ | .setLit _
  | .arrayLit _ => true
  | _ => false

/-! ### Integer bounds computation (`ComputeIntBounds`) -/

/-- `IntVal`: a bignum integer extended with the `±∞` sentinels. -/
inductive IntV where
  | negInf
  | fin (v : Int)
  | posInf
  deriving DecidableEq, Repr

namespace IntV

/-- `IntVal::isFinite`. -/
def isFinite : IntV → Bool
  | .fin _ => true
  | _ => false

/-- Negation on `IntVal`. -/
def neg : IntV → IntV
  | .negInf => .posInf
  | .posInf => .negInf
  | .fin v => .fin (-v)

/-- The order on `IntVal` with `-∞` at the bottom and `+∞` at the top. -/
def le : IntV → IntV → Bool
  | .negInf, _ => true
  | _, .posInf => true
  | .fin a, .fin b => a ≤ b
  | _, _ => false

/-- `std::min` on `IntVal`. -/
def minv (a b : IntV) : IntV := if le a b then a else b

/-- `std::max` on `IntVal`. -/
def maxv (a b : IntV) : IntV := if le a b then b else a

end IntV

/-- `IntBounds` (src/include/minizinc/eval_par.hh:45): an interval plus
a validity flag. -/
structure IntBounds where
  l : IntV
  u : IntV
  valid : Bool
  deriving DecidableEq, Repr

/-- `ComputeIntBounds::vBinOp` (src/lib/eval_par.cpp:2638) applied to
the children's bounds; `none` models `valid` being cleared.  Any
infinite child bound clears `valid`; `+`, `-` are interval arithmetic;
`*` takes min/max over the four corner products; `div` and `mod`
replace a zero lower corner by `1` and a zero upper corner by `-1` in
both operands, then take min/max over the four corner
quotients/remainders (`IntVal` division and remainder truncate towards
zero); every other operator clears `valid`. -/
def vBinOpBounds (op : BOp) (b0 b1 : IntV × IntV) : Option (IntV × IntV) :=
  match b0, b1 with
  | (.fin l0, .fin u0), (.fin l1, .fin u1) =>
    match op with
    | .plus => some (.fin (l0 + l1), .fin (u0 + u1))
    | .minus => some (.fin (l0 - u1), .fin (u0 - l1))
    | .mult =>
      let x0 := l0 * l1
      let x1 := l0 * u1
      let x2 := u0 * l1
      let x3 := u0 * u1
      some (.fin (min x0 (min x1 (min x2 x3))),
            .fin (max x0 (max x1 (max x2 x3))))
    | .idiv =>
      let b0f := if l0 = 0 then 1 else l0
      let b0s := if u0 = 0 then -1 else u0
      let b1f := if l1 = 0 then 1 else l1
      let b1s := if u1 = 0 then -1 else u1
      let x0 := b0f.tdiv b1f
      let x1 := b0f.tdiv b1s
      let x2 := b0s.tdiv b1f
      let x3 := b0s.tdiv b1s
      some (.fin (min x0 (min x1 (min x2 x3))),
            .fin (max x0 (max x1 (max x2 x3))))
    | .mod =>
      let b0f := if l0 = 0 then 1 else l0
      let b0s := if u0 = 0 then -1 else u0
      let b1f := if l1 = 0 then 1 else l1
      let b1s := if u1 = 0 then -1 else u1
      let x0 := b0f.tmod b1f
      let x1 := b0f.tmod b1s
      let x2 := b0s.tmod b1f
      let x3 := b0s.tmod b1s
      some (.fin (min x0 (min x1 (min x2 x3))),
            .fin (max x0 (max x1 (max x2 x3))))
    | _ => none
  | _, _ => none

/-- `ComputeIntBounds::vUnOp` (src/lib/eval_par.cpp:2719): unary plus
keeps the bounds, unary minus negates both and swaps them.  (No
finiteness test: the visitor operates directly on the stack top.) -/
def vUnOpBounds (op : UOp) (b : IntV × IntV) : Option (IntV × IntV) :=
  match op with
  | .uplus => some b
  | .uminus => some (b.2.neg, b.1.neg)

/-- `IntSetVal::min(0)`: the lower bound of the first range. -/
def isvMin : List (Int × Int) → Int
  | [] => 0
  | (a, _) :: _ => a

/-- `IntSetVal::max(size()-1)`: the upper bound of the last range. -/
def isvMax : List (Int × Int) → Int
  | [] => 0
  | [(_, b)] => b
  | _ :: rest => isvMax rest

mutual

/-- `ComputeIntBounds` run over an expression
(src/lib/eval_par.cpp:2479), as a recursion returning `none` for the
sticky `valid == false` flag, with evaluator exceptions propagating as
in the C++ (the visitor's `enter` throws through the iterator).  The
`enter` hook evaluates any par (non-cv; the fragment is cv-free)
expression with `eval_par`: an int-typed result other than absent gives
the point interval, anything else clears `valid`; non-par nodes of int
type are visited (`cib_switch`); non-par nodes of other types are
skipped by `enter` (a precondition violation at the top level,
conservatively modelled as clearing `valid`). -/
def cib (e : Expr) : Except EvalExn (Option (IntV × IntV)) :=
  if isParE e then do
    let ex ← eval_par e
    if e.ty = .tint then
      match ex with
      | .intLit v => pure (some (.fin v, .fin v))
      | _ => pure none
    else pure none
  else cib_switch e

/-- The per-node visitors of `ComputeIntBounds` for non-par nodes.
`vId` (src/lib/eval_par.cpp:2563) takes the declared domain's extremes
(an empty domain clears `valid`, a missing domain gives `-∞..∞`);
the `enter` special case for int if-then-else
(src/lib/eval_par.cpp:2507) follows the branch when the condition is
par, and merges then/else bounds otherwise; binary and unary operators
combine the children's bounds (`vBinOpBounds`, `vUnOpBounds`); a
`bool2int` call gets `0..1` (src/lib/eval_par.cpp:2831); the remaining
call forms (`lin_exp`, `sum`, `card`, `int_times`, `abs`, declared
codomains) operate on declarations and arrays outside the fragment and
fall to the default branch, which clears `valid`, as do all other node
kinds. -/
def cib_switch (e : Expr) : Except EvalExn (Option (IntV × IntV)) :=
  match e with
  | .varId dom =>
    match dom with
    | some isv =>
      match isv with
      | [] => pure none
      | _ :: _ => pure (some (.fin (isvMin isv), .fin (isvMax isv)))
    | none => pure (some (.negInf, .posInf))
  | .ite t c b1 b2 =>
    if t = .tint then
      if isParE c then do
        if (← eval_bool c) then cib b1 else cib b2
      else do
        let bb1 ← cib b1
        let bb2 ← cib b2
        match bb1, bb2 with
        | some (l1, u1), some (l2, u2) =>
          pure (some (IntV.minv l1 l2, IntV.maxv u1 u2))
        | _, _ => pure none
    else pure none
  | .binOp t op l r =>
    if t = .tint then do
      let x0 ← cib l
      let x1 ← cib r
      match x0, x1 with
      | some b0, some b1 => pure (vBinOpBounds op b0 b1)
      | _, _ => pure none
    else pure none
  | .unOp t op a =>
    if t = .tint then do
      match (← cib a) with
      | some b => pure (vUnOpBounds op b)
      | none => pure none
    else pure none
  | .call _ id _ =>
    if id = "bool2int" then pure (some (.fin 0, .fin 1)) else pure none
  | _ => pure none

end

/-- `compute_int_bounds` (src/lib/eval_par.cpp:2891): runs the visitor;
a valid single result is returned as such, an invalid run returns
`[0,0]` with `valid == false`, a `ResultUndefinedError` is caught and
also returns `[0,0]` invalid, and any other exception propagates. -/
def compute_int_bounds (e : Expr) : Except EvalExn IntBounds :=
  match cib e with
  | .ok (some (l, u)) => .ok ⟨l, u, true⟩
  | .ok none => .ok ⟨.fin 0, .fin 0, false⟩
  | .error (.resultUndefined _) => .ok ⟨.fin 0, .fin 0, false⟩
  | .error err => .error err

/-! ### The environment and `EnvI::fail` -/

/-- The item kinds of the flat and output models needed by the failure
protocol: variable declarations, constraints (flagging the
`constraint false;` form), solve items (flagging `solve satisfy;`),
output items (flagging the empty output), and everything else. -/
inductive ItemKind where
  | varDeclI (idx : Nat)
  | constraintI (isFalse : Bool)
  | solveI (isSat : Bool)
  | outputI (isEmpty : Bool)
  | otherI (tag : Nat)
  deriving DecidableEq, Repr

/-- A model item with its `removed` flag (`Item::remove()` only marks;
physical deletion happens at compaction). -/
structure Item where
  kind : ItemKind
  removed : Bool
  deriving DecidableEq, Repr

/-- `Item::remove()`. -/
def Item.remove (i : Item) : Item := { i with removed := true }

/-- The slice of `EnvI` the modelled operations touch: the failure
flag, the flat model, the output model, the warning buffer, and the
counter backing fresh flat variables. -/
structure EnvI where
  failed : Bool
  flat : List Item
  output : List Item
  warnings : List String
  cnt : Nat
  deriving DecidableEq, Repr

/-- `EnvI::addWarning` (src/lib/flatten.cpp:1780): warnings accumulate
up to the 20-warning cap, after which a single terminal suppression
entry is added. -/
def EnvI.addWarning (env : EnvI) (msg : String) : EnvI :=
  if 20 ≤ env.warnings.length then
    if env.warnings.length = 20 then
      { env with warnings :=
          env.warnings ++ ["Further warnings have been suppressed."] }
    else env
  else { env with warnings := env.warnings ++ [msg] }

/-- `EnvI::fail` (src/lib/flatten.cpp:1153).  On a not-yet-failed
environment: add the model-inconsistency warning, set the failed flag,
mark every flat item removed and append `constraint false;` and
`solve satisfy;`, mark every output item removed and append an empty
output item, and throw `ModelInconsistent` (the boolean of the result).
On an already-failed environment the call does nothing. -/
def EnvI.fail (env : EnvI) (msg : String) : EnvI × Bool :=
  if !env.failed then
    let env1 := env.addWarning
      ("model inconsistency detected" ++
        (if msg = "" then "" else ": " ++ msg))
    ({ env1 with
        failed := true
        flat := env1.flat.map Item.remove ++
          [⟨.constraintI true, false⟩, ⟨.solveI true, false⟩]
        output := env1.output.map Item.remove ++ [⟨.outputI true, false⟩] },
     true)
  else (env, false)

/-! ### Flattening of par expressions, lets and comprehensions -/

/-- The boolean context polarity `BCtx` (`C_ROOT`, `C_POS`, `C_NEG`,
`C_MIX`). -/
inductive BCtx where
  | root
  | pos
  | neg
  | mix
  deriving DecidableEq, Repr

/-- The result-target declaration `r` of `flat_exp` restricted to the
fragment: either no target or the special `constants.varTrue`. -/
inductive RTarget where
  | noTarget
  | varTrue
  deriving DecidableEq, Repr

/-- The flattening exception classes in scope. -/
inductive FlatEx where
  | modelInconsistent
  | flatteningError (msg : String)
  | evalError (msg : String)
  deriving DecidableEq, Repr

/-- Modelled from the spec: `create_dummy_value` is not under `src/`
(only its callers in flatten_par.cpp are).  Per the spec (§4.4.1,
§7), on undefinedness a non-boolean context receives the type's dummy
value; the dummy shapes follow `ArrayAccessSucess::dummyLiteral`
(src/lib/eval_par.cpp:861): `0` for int, `false` for bool, `0.0` for
float, `""` for string, the empty set for sets, and the absent value
for optional types. -/
def create_dummy_value : Ty → Expr
  | .tint => .intLit 0
  | .tbool => .boolLit false
  | .tfloat => .floatLit 0
  | .tstring => .stringLit ""
  | .tsetInt => .setLit []
  | .toptInt => .absent
  | .tarr => .arrayLit []

/-- `bind(env, ctx, r, e)` restricted to the fragment's targets: with
no target declaration `bind` returns `e` itself; the `varTrue` target
is only reached on the non-failing path, where the bound result is the
expression as well. -/
def bindR : RTarget → Expr → Expr
  | _, e => e

/-- Whether an evaluated result is the interned `constants.boollit(false)`
(the C++ compares pointers against the interned literal). -/
def isFalseLit : Expr → Bool
  | .boolLit false => true
  | _ => false

/-- The scalar (dim-0, non-cv) branch of `flatten_par`
(src/lib/flatten/flatten_par.cpp:112); the cv and array branches
(lines 18–111) are separate paths outside this fragment.  The
expression is evaluated with `eval_par`; a par bool result of `false`
in ROOT context with target `varTrue` fails the model (which throws
`ModelInconsistent` unless the environment had already failed); a
successful result is bound with definedness `true`; on
`ResultUndefinedError` the result is the type's dummy value with
definedness `false`; a hard `EvalError` propagates. -/
def flatten_par_scalar (env : EnvI) (ctxB : BCtx) (r : RTarget) (e : Expr) :
    EnvI × Except FlatEx (Expr × Expr) :=
  match eval_par e with
  | .ok result =>
    if result.ty = .tbool ∧ isParE result ∧ ctxB = .root ∧ r = .varTrue ∧
        isFalseLit result = true then
      match env.fail "expression evaluated to false" with
      | (env', true) => (env', .error .modelInconsistent)
      | (env', false) => (env', .ok (bindR r result, .boolLit true))
    else (env, .ok (bindR r result, .boolLit true))
  | .error (.resultUndefined _) =>
    (env, .ok (create_dummy_value e.ty, .boolLit false))
  | .error (.evalError m) => (env, .error (.evalError m))

/-- `new_vardecl` (src/lib/flatten.cpp:601) in the single-pass fragment
with no recorded source paths: a fresh `VarDecl` is created and a
`VarDeclI` item for it is appended to the flat model.  Returns the new
environment and the fresh variable's index. -/
def new_vardecl (env : EnvI) : EnvI × Nat :=
  ({ env with
      cnt := env.cnt + 1
      flat := env.flat ++ [⟨.varDeclI env.cnt, false⟩] }, env.cnt)

/-- The no-right-hand-side `VarDecl` branch of `flatten_let`
(src/lib/flatten/flatten_let.cpp:64): in a NEG or MIX boolean context a
declaration not annotated `promise_total` raises the hard
`FlatteningError`; otherwise `eval_typeinst` and `new_vardecl`
introduce a fresh flat variable whose id becomes the declaration's
value. -/
def flatten_let_novalue (env : EnvI) (ctxB : BCtx) (promiseTotal : Bool) :
    Except FlatEx (EnvI × Nat) :=
  if (ctxB = .neg ∨ ctxB = .mix) ∧ promiseTotal = false then
    .error (.flatteningError "free variable in non-positive context")
  else
    .ok (new_vardecl env)

/-- `Type::ot(OT_PRESENT)` on fragment types: opt int becomes plain
int. -/
def Ty.present : Ty → Ty
  | .toptInt => .tint
  | t => t

/-- `Type::ot(OT_OPTIONAL)` on fragment types: int becomes opt int. -/
def Ty.optional : Ty → Ty
  | .tint => .toptInt
  | t => t

/-- `Type::bt() == Type::BT_INT` on fragment types. -/
def Ty.btIsInt : Ty → Bool
  | .tint | .toptInt => true
  | _ => false

/-- The condition `flatten_comp` builds from the collected var `where`
parts (src/lib/flatten/flatten_comp.cpp:134): a single part is used
directly, several are wrapped into a `forall` over their array literal.
(`flatten_comp` only reaches this with a non-empty list.) -/
def mkVarWhereCond : List Expr → Expr
  | [w] => w
  | ws => .call .tbool "forall" [.arrayLit ws]

/-- The rewriting of a comprehension body under its surrounding call
(src/lib/flatten/flatten_comp.cpp:163): under `forall` the body becomes
`cond -> body`; under `exists`, `cond /\ body`; under `sum`, a par body
becomes `bool2int(cond) * body` (`bool2float(cond) * body` when the
body's base type is not int) and a var body becomes
`if cond then body else 0 endif`; under any other (or no) surrounding
call, `if cond then body else <> endif`, making the result optional. -/
def rewriteCompBody (surround : Option String) (cond generatedExp : Expr) :
    Expr :=
  if surround = some "forall" then
    .binOp .tbool .impl cond generatedExp
  else if surround = some "exists" then
    .binOp .tbool .band cond generatedExp
  else if surround = some "sum" then
    let tt := generatedExp.ty.present
    if isParE generatedExp then
      let cid := if generatedExp.ty.btIsInt then "bool2int" else "bool2float"
      let cty := if generatedExp.ty.btIsInt then Ty.tint else Ty.tfloat
      .binOp tt .mult (.call cty cid [cond]) generatedExp
    else
      .ite tt cond generatedExp (.intLit 0)
  else
    .ite generatedExp.ty.optional cond generatedExp .absent

/-! ### Par array access -/

/-- The failure record of `ArrayAccessSucess` (its class declaration
lives in a header not under `src/`; these are the fields its
`errorMessage` reads): the failing dimension (0-based), that
dimension's index-set bounds, and the offending index value. -/
structure AccessFail where
  dim : Nat
  dimMin : Int
  dimMax : Int
  idx : Int
  deriving DecidableEq, Repr

/-- A par array access of the fragment: the evaluated array literal's
elements, its per-dimension index sets and enum ids (0 meaning a plain
int index set), the accessed identifier's name when the array
expression is an `Id`, whether the access expression's type is
optional, and the index expressions. -/
structure AAccess where
  elems : List Expr
  dims : List (Int × Int)
  enumIds : List Nat
  name : Option String
  tyIsOpt : Bool
  idx : List Expr

/-- `ArrayAccessSucess::errorMessage` (src/lib/eval_par.cpp:831).
`ets` stands for `EnvI::enumToString` (src/lib/flatten.cpp:1527), which
evaluates the model's generated `_toString_` function for the enum —
machinery outside the fragment, taken as a parameter.  The message
names the failing dimension when the array has more than one dimension,
and renders the index-set bounds and the given index through the enum's
names when the dimension's index set is an enum. -/
def errorMessage (ets : Nat → Int → String) (f : AccessFail)
    (arrDims : Nat) (name : Option String) (enumIds : List Nat) : String :=
  "array access out of bounds, "
    ++ (if 1 < arrDims then "dimension " ++ toString (f.dim + 1) ++ " of "
        else "")
    ++ "array"
    ++ (match name with
        | some n => " `" ++ n ++ "'"
        | none => "")
    ++ (if enumIds.getD f.dim 0 ≠ 0 then
          " has index set " ++ ets (enumIds.getD f.dim 0) f.dimMin ++ ".."
            ++ ets (enumIds.getD f.dim 0) f.dimMax
            ++ ", but given index is " ++ ets (enumIds.getD f.dim 0) f.idx
        else
          " has index set " ++ toString f.dimMin ++ ".." ++ toString f.dimMax
            ++ ", but given index is " ++ toString f.idx)

/-- The absent-index scan of `eval_arrayaccess`
(src/lib/eval_par.cpp:895): an optional-typed index whose evaluation is
the absent value short-circuits to `true`. -/
def absentCheck : List Expr → Except EvalExn Bool
  | [] => .ok false
  | i :: rest =>
    if i.ty = .toptInt then do
      match ← eval_par i with
      | .absent => .ok true
      | _ => absentCheck rest
    else absentCheck rest

/-- Modelled from the spec: the index arithmetic of
`eval_arrayaccess(EnvI&, ArrayLit*, Idx, success)` is not under `src/`
(the repository provides only its declaration and callers).  Per the
spec, each index is evaluated and checked against its dimension's index
set in order; the first index outside its dimension records the failure
(dimension, its bounds, the index); otherwise the row-major position
selects into the flattened element vector. -/
def array_access_core (d : Nat) (pos : Int) :
    List (Int × Int) → List Expr → Except EvalExn (Sum AccessFail Int)
  | [], _ => .ok (.inr pos)
  | (mn, mx) :: drest, ie :: irest => do
    let i ← eval_int_internal ie
    if i < mn ∨ mx < i then .ok (.inl ⟨d, mn, mx, i⟩)
    else array_access_core (d + 1) (pos * (mx - mn + 1) + (i - mn)) drest irest
  | _ :: _, [] => .ok (.inr pos)

/-- `eval_arrayaccess` (src/lib/eval_par.cpp:893, throwing wrapper at
911): an access of optional type whose optional indices include an
absent value yields absent; otherwise the indices are evaluated and
checked (`array_access_core`); a recorded failure becomes a
`ResultUndefinedError` carrying `errorMessage`; success selects the
element. -/
def eval_arrayaccess (ets : Nat → Int → String) (acc : AAccess) :
    Except EvalExn Expr := do
  if acc.tyIsOpt then
    if ← absentCheck acc.idx then
      return .absent
  match ← array_access_core 0 0 acc.dims acc.idx with
  | .inr pos => .ok (acc.elems.getD pos.toNat (.intLit 0))
  | .inl f =>
    .error (.resultUndefined (errorMessage ets f acc.dims.length acc.name acc.enumIds))

/-! ### The JSON lexer's string automaton -/

/-- The two string states of `JSONParser::readToken`
(src/lib/json_parser.cpp:110): inside a string, or just after a
backslash. -/
inductive LexState where
  | sString
  | sStringEscape
  deriving DecidableEq, Repr

/-- The string portion of `JSONParser::readToken`
(src/lib/json_parser.cpp:177): in the escape state, `n`, `t`, `"` and
`\` produce newline, tab, double quote and backslash, and any other
character is kept verbatim behind the backslash; in the plain state, a
double quote ends the token, a backslash enters the escape state, and
any other character is appended.  Exhausting the input inside a string
makes the reader return its end-of-file token (`none`). -/
def readStringToken : List Char → LexState → String → Option (String × List Char)
  | [], _, _ => none
  | ch :: rest, .sStringEscape, acc =>
    let acc' :=
      if ch = 'n' then acc ++ "\n"
      else if ch = 't' then acc ++ "\t"
      else if ch = '"' then acc ++ "\""
      else if ch = '\\' then acc ++ "\\"
      else (acc ++ "\\").push ch
    readStringToken rest .sString acc'
  | ch :: rest, .sString, acc =>
    if ch = '"' then some (acc, rest)
    else if ch = '\\' then readStringToken rest .sStringEscape acc
    else readStringToken rest .sString (acc.push ch)

end MiniZinc

/-! ## Theorems -/

namespace MiniZinc

theorem eval_par_intLit (n : Int) : eval_par (.intLit n) = .ok (.intLit n) := by
  simp [eval_par, eval_int_internal, eval_int_switch, Expr.ty, isParE, Except.map]

theorem eval_par_floatLit (q : Rat) : eval_par (.floatLit q) = .ok (.floatLit q) := by
  simp [eval_par, eval_float, eval_float_switch, Expr.ty, isParE, Except.map]

theorem eval_par_boolLit (b : Bool) : eval_par (.boolLit b) = .ok (.boolLit b) := by
  simp [eval_par, eval_bool, Expr.ty, isParE, Except.map]

theorem eval_par_stringLit (s : String) : eval_par (.stringLit s) = .ok (.stringLit s) := by
  simp [eval_par]

theorem eval_par_setLit (s : List (Int × Int)) : eval_par (.setLit s) = .ok (.setLit s) := by
  simp [eval_par, eval_intset, Expr.ty, isParE, Except.map]

theorem eval_par_absent : eval_par .absent = .ok .absent := by
  simp [eval_par]

end MiniZinc

namespace MiniZinc

/-- Helper: splitting `isParEList` / `WTList` on a cons cell. -/
theorem isParEList_cons {a : Expr} {rest : List Expr} :
    isParEList (a :: rest) = (isParE a && isParEList rest) := by
  simp [isParEList]

theorem except_map_ok {α β γ : Type} {f : α → β} {x : Except γ α} {v : β}
    (h : Except.map f x = .ok v) : ∃ a, x = .ok a ∧ f a = v := by
  cases x with
  | error e => simp [Except.map] at h
  | ok a => exact ⟨a, rfl, by simpa [Except.map] using h⟩

theorem except_bind_ok {α β γ : Type} {x : Except γ α} {f : α → Except γ β} {v : β}
    (h : (x >>= f) = .ok v) : ∃ a, x = .ok a ∧ f a = .ok v := by
  cases x with
  | error e => simp [Bind.bind, Except.bind] at h
  | ok a => exact ⟨a, rfl, by simpa [Bind.bind, Except.bind] using h⟩

theorem eval_par_flat {a : Expr} (h : isFlatLit a = true) : eval_par a = .ok a := by
  cases a <;> simp [isFlatLit] at h
  · exact eval_par_intLit _
  · exact eval_par_floatLit _
  · exact eval_par_boolLit _
  · exact eval_par_setLit _

theorem eval_par_arr_idem_aux (n : Nat)
    (ih : ∀ e, sizeOf e ≤ n → isParE e = true → WT e = true →
      ∀ v, eval_par e = .ok v →
        (isCanonLit v = true ∨ v = .absent) ∧ eval_par v = .ok v) :
    ∀ es, sizeOf es ≤ n → isParEList es = true → WTList es = true →
      ∀ args, eval_par_arr es = .ok args → eval_par_arr args = .ok args := by
  intro es
  induction es with
  | nil =>
    intro _ _ _ args hargs
    simp [eval_par_arr] at hargs
    subst hargs
    simp [eval_par_arr]
  | cons a rest iha =>
    intro hs hp hw args hargs
    have hsa : sizeOf a ≤ n ∧ sizeOf rest ≤ n := by
      simp at hs; omega
    have hpa : isParE a = true ∧ isParEList rest = true := by
      simp [isParEList] at hp; exact hp
    have hwa : WT a = true ∧ WTList rest = true := by
      simp [WTList] at hw; exact hw
    rw [eval_par_arr] at hargs
    by_cases hfl : isFlatLit a = true
    case pos =>
      rw [if_pos hfl] at hargs
      obtain ⟨a', ha', hrest⟩ := except_bind_ok hargs
      simp [Pure.pure, Except.pure] at ha'
      subst ha'
      obtain ⟨rest', hrest', heq⟩ := except_bind_ok hrest
      simp [Pure.pure, Except.pure] at heq
      subst heq
      have hrest'' : eval_par_arr rest' = .ok rest' :=
        iha hsa.2 hpa.2 hwa.2 rest' hrest'
      rw [eval_par_arr, if_pos hfl]
      simp [Pure.pure, Except.pure, Bind.bind, Except.bind, hrest'']
    case neg =>
      rw [if_neg hfl] at hargs
      obtain ⟨a', ha', hrest⟩ := except_bind_ok hargs
      obtain ⟨rest', hrest', heq⟩ := except_bind_ok hrest
      simp [Pure.pure, Except.pure] at heq
      subst heq
      have hidem : eval_par a' = .ok a' :=
        (ih a hsa.1 hpa.1 hwa.1 a' ha').2
      have hrest'' : eval_par_arr rest' = .ok rest' :=
        iha hsa.2 hpa.2 hwa.2 rest' hrest'
      rw [eval_par_arr]
      by_cases hfl' : isFlatLit a' = true
      · rw [if_pos hfl']
        simp [Pure.pure, Except.pure, Bind.bind, Except.bind, hrest'']
      · rw [if_neg hfl']
        simp [hidem, Bind.bind, Except.bind, hrest'', Pure.pure, Except.pure]

theorem eval_par_lit_or_absent_idem_aux :
    ∀ (n : Nat) (e : Expr), sizeOf e ≤ n → isParE e = true → WT e = true →
      ∀ v, eval_par e = .ok v →
        (isCanonLit v = true ∨ v = .absent) ∧ eval_par v = .ok v := by
  intro n
  induction n with
  | zero =>
    intro e hs
    exact absurd hs (by cases e <;> simp)
  | succ n ih =>
    intro e hs hp hw v hv
    cases e with
    | intLit m =>
      rw [eval_par_intLit] at hv
      cases hv
      exact ⟨Or.inl rfl, eval_par_intLit m⟩
    | floatLit q =>
      rw [eval_par_floatLit] at hv
      cases hv
      exact ⟨Or.inl rfl, eval_par_floatLit q⟩
    | boolLit b =>
      rw [eval_par_boolLit] at hv
      cases hv
      exact ⟨Or.inl rfl, eval_par_boolLit b⟩
    | stringLit s =>
      rw [eval_par_stringLit] at hv
      cases hv
      exact ⟨Or.inl rfl, eval_par_stringLit s⟩
    | setLit s =>
      rw [eval_par_setLit] at hv
      cases hv
      exact ⟨Or.inl rfl, eval_par_setLit s⟩
    | absent =>
      rw [eval_par_absent] at hv
      cases hv
      exact ⟨Or.inr rfl, eval_par_absent⟩
    | varId d => simp [isParE] at hp
    | call t id args => simp [WT] at hw
    | arrayLit es =>
      simp only [eval_par] at hv
      obtain ⟨args, hargs, hveq⟩ := except_map_ok hv
      subst hveq
      have hsz : sizeOf es ≤ n := by simp at hs; omega
      have hpl : isParEList es = true := by simpa [isParE] using hp
      have hwl : WTList es = true := by simpa [WT] using hw
      refine ⟨Or.inl rfl, ?_⟩
      simp only [eval_par]
      rw [eval_par_arr_idem_aux n ih es hsz hpl hwl args hargs]
      rfl
    | binOp t op l r =>
      have hty : t = .tint ∨ t = .tfloat ∨ t = .tbool := by
        cases op <;> simp [WT] at hw <;> tauto
      rcases hty with h | h | h <;> subst h
      · simp only [eval_par, Expr.ty, hp] at hv
        simp at hv
        obtain ⟨m, _, hveq⟩ := except_map_ok hv
        subst hveq
        exact ⟨Or.inl rfl, eval_par_intLit m⟩
      · simp only [eval_par, Expr.ty, hp] at hv
        simp at hv
        obtain ⟨q, _, hveq⟩ := except_map_ok hv
        subst hveq
        exact ⟨Or.inl rfl, eval_par_floatLit q⟩
      · simp only [eval_par, Expr.ty, hp] at hv
        simp at hv
        obtain ⟨b, _, hveq⟩ := except_map_ok hv
        subst hveq
        exact ⟨Or.inl rfl, eval_par_boolLit b⟩
    | unOp t op a =>
      have hty : t = .tint ∨ t = .tfloat := by
        simp [WT] at hw; tauto
      rcases hty with h | h <;> subst h
      · simp only [eval_par, Expr.ty, hp] at hv
        simp at hv
        obtain ⟨m, _, hveq⟩ := except_map_ok hv
        subst hveq
        exact ⟨Or.inl rfl, eval_par_intLit m⟩
      · simp only [eval_par, Expr.ty, hp] at hv
        simp at hv
        obtain ⟨q, _, hveq⟩ := except_map_ok hv
        subst hveq
        exact ⟨Or.inl rfl, eval_par_floatLit q⟩
    | ite t c b1 b2 =>
      have hw' := hw
      simp [WT] at hw'
      have hp' := hp
      simp [isParE] at hp'
      obtain ⟨⟨hpc, hpb1⟩, hpb2⟩ := hp'
      have hsz : sizeOf c ≤ n ∧ sizeOf b1 ≤ n ∧ sizeOf b2 ≤ n := by
        simp at hs; omega
      have hts : t = .tint ∨ t = .tbool ∨ t = .tfloat ∨ t = .tstring ∨
          t = .tsetInt ∨ t = .toptInt := by tauto
      rcases hts with h | h | h | h | h | h <;> subst h
      · simp only [eval_par, Expr.ty, hp] at hv
        simp at hv
        obtain ⟨m, _, hveq⟩ := except_map_ok hv
        subst hveq
        exact ⟨Or.inl rfl, eval_par_intLit m⟩
      · simp only [eval_par, Expr.ty, hp] at hv
        simp at hv
        obtain ⟨b, _, hveq⟩ := except_map_ok hv
        subst hveq
        exact ⟨Or.inl rfl, eval_par_boolLit b⟩
      · simp only [eval_par, Expr.ty, hp] at hv
        simp at hv
        obtain ⟨q, _, hveq⟩ := except_map_ok hv
        subst hveq
        exact ⟨Or.inl rfl, eval_par_floatLit q⟩
      · simp only [eval_par, Expr.ty, hp] at hv
        simp at hv
        obtain ⟨s, _, hveq⟩ := except_map_ok hv
        subst hveq
        exact ⟨Or.inl rfl, eval_par_stringLit s⟩
      · simp only [eval_par, Expr.ty, hp] at hv
        simp at hv
        obtain ⟨s, _, hveq⟩ := except_map_ok hv
        subst hveq
        exact ⟨Or.inl rfl, eval_par_setLit s⟩
      · -- opt int: the inner switch follows the evaluated branch
        have hcty : c.ty = Ty.tbool := by tauto
        simp only [eval_par, Expr.ty, hp] at hv
        simp at hv
        simp only [eval_par_inner] at hv
        rw [if_pos ⟨hcty, hpc⟩] at hv
        cases hb : eval_bool c with
        | error err => simp [hb, Bind.bind, Except.bind] at hv
        | ok bb =>
          simp [hb, Bind.bind, Except.bind] at hv
          cases bb with
          | true =>
            simp at hv
            have hwb1 : WT b1 = true := by tauto
            exact ih b1 hsz.2.1 hpb1 hwb1 v hv
          | false =>
            simp at hv
            have hwb2 : WT b2 = true := by tauto
            exact ih b2 hsz.2.2 hpb2 hwb2 v hv

/-- C1 (amended): for every well-typed parameter expression `e` of the
fragment that `eval_par` successfully evaluates, the returned expression
`v` is a canonical literal (`IntLit`, `FloatLit`, `BoolLit`,
`StringLit`, `SetLit` or `ArrayLit`) or the absent value `<>`, and
evaluating it again is the identity: `eval_par v = v`. -/
theorem eval_par_canonical_idempotent (e : Expr) (hp : isParE e = true)
    (hw : WT e = true) (v : Expr) (hv : eval_par e = .ok v) :
    (isCanonLit v = true ∨ v = .absent) ∧ eval_par v = .ok v :=
  eval_par_lit_or_absent_idem_aux (sizeOf e) e le_rfl hp hw v hv

/-- Witness for the amended C1 theorem at the parameter expression
`2 + 3`. -/
theorem eval_par_canonical_idempotent_witness :
    (isCanonLit (Expr.intLit 5) = true ∨ Expr.intLit 5 = Expr.absent) ∧
      eval_par (Expr.intLit 5) = .ok (Expr.intLit 5) :=
  eval_par_canonical_idempotent
    (Expr.binOp .tint .plus (.intLit 2) (.intLit 3))
    (by simp [isParE]) (by simp [WT, Expr.ty]) (Expr.intLit 5)
    (by simp [eval_par, eval_int_internal, eval_int_switch, Expr.ty,
          isParE, Except.map, Bind.bind, Except.bind])

/-- C1 (counterexample): the absent value `<>` is a well-typed parameter
expression that `eval_par` evaluates successfully, but the result is not
one of the canonical literal kinds, refuting the claim that every
successful `eval_par` result is a canonical literal. -/
theorem eval_par_absent_not_literal :
    isParE Expr.absent = true ∧ WT Expr.absent = true ∧
      eval_par Expr.absent = .ok Expr.absent ∧
      isCanonLit Expr.absent = false :=
  ⟨rfl, rfl, eval_par_absent, rfl⟩

/-- C2: for par integer `a div b` and `a mod b` with `b` evaluating to
zero, for `a ^ b` with `a` evaluating to zero and `b` negative, and for
par float `a / b` with `b` evaluating to zero, evaluation raises the
undefinedness signal `ResultUndefinedError` (not a value, not a hard
`EvalError`). -/
theorem eval_zero_division_undefined :
    (∀ a b : Expr, ∀ va : Int, eval_int_internal a = .ok va →
      eval_int_internal b = .ok 0 →
      eval_int_internal (.binOp .tint .idiv a b) =
        .error (.resultUndefined "division by zero")) ∧
    (∀ a b : Expr, ∀ va : Int, eval_int_internal a = .ok va →
      eval_int_internal b = .ok 0 →
      eval_int_internal (.binOp .tint .mod a b) =
        .error (.resultUndefined "division by zero")) ∧
    (∀ a b : Expr, ∀ nv : Int, eval_int_internal a = .ok 0 →
      eval_int_internal b = .ok nv → nv < 0 →
      eval_int_internal (.binOp .tint .pow a b) =
        .error (.resultUndefined "negative power of zero is undefined")) ∧
    (∀ a b : Expr, ∀ va : Rat, eval_float a = .ok va →
      eval_float b = .ok 0 →
      eval_float (.binOp .tfloat .fdiv a b) =
        .error (.resultUndefined "division by zero")) := by
  refine ⟨?_, ?_, ?_, ?_⟩
  · intro a b va ha hb
    simp [eval_int_internal, eval_int_switch, Expr.ty, ha, hb,
      Bind.bind, Except.bind]
  · intro a b va ha hb
    simp [eval_int_internal, eval_int_switch, Expr.ty, ha, hb,
      Bind.bind, Except.bind]
  · intro a b nv ha hb hneg
    simp [eval_int_internal, eval_int_switch, Expr.ty, ha, hb, hneg,
      Bind.bind, Except.bind]
  · intro a b va ha hb
    simp [eval_float, eval_float_switch, Expr.ty, ha, hb,
      Bind.bind, Except.bind]

/-- Witness for the C2 theorem: `3 div 0`, `3 mod 0`, `0 ^ -2` and
`1.0 / 0.0` all raise the undefinedness signal. -/
theorem eval_zero_division_undefined_witness :
    eval_int_internal (.binOp .tint .idiv (.intLit 3) (.intLit 0)) =
      .error (.resultUndefined "division by zero") ∧
    eval_int_internal (.binOp .tint .mod (.intLit 3) (.intLit 0)) =
      .error (.resultUndefined "division by zero") ∧
    eval_int_internal (.binOp .tint .pow (.intLit 0) (.intLit (-2))) =
      .error (.resultUndefined "negative power of zero is undefined") ∧
    eval_float (.binOp .tfloat .fdiv (.floatLit 1) (.floatLit 0)) =
      .error (.resultUndefined "division by zero") :=
  ⟨eval_zero_division_undefined.1 _ _ 3
      (by simp [eval_int_internal, eval_int_switch, Expr.ty])
      (by simp [eval_int_internal, eval_int_switch, Expr.ty]),
   eval_zero_division_undefined.2.1 _ _ 3
      (by simp [eval_int_internal, eval_int_switch, Expr.ty])
      (by simp [eval_int_internal, eval_int_switch, Expr.ty]),
   eval_zero_division_undefined.2.2.1 _ _ (-2)
      (by simp [eval_int_internal, eval_int_switch, Expr.ty])
      (by simp [eval_int_internal, eval_int_switch, Expr.ty])
      (by norm_num),
   eval_zero_division_undefined.2.2.2 _ _ 1
      (by simp [eval_float, eval_float_switch, Expr.ty])
      (by simp [eval_float, eval_float_switch, Expr.ty])⟩

end MiniZinc

namespace MiniZinc

/-- C3: after a call to `fail(msg, loc)` on a not-yet-failed
environment, `ModelInconsistent` is thrown, the environment is failed,
every item that was in the flat model is marked removed, a
`constraint false;` item and a `solve satisfy;` item are present in the
flat model, every item of the flat model is removed or one of those
two, and the output model contains (not-removed) only an empty output
item. -/
theorem fail_produces_skeleton (env : EnvI) (msg : String)
    (h : env.failed = false) :
    (env.fail msg).2 = true ∧
    (env.fail msg).1.failed = true ∧
    (∀ i ∈ env.flat, Item.remove i ∈ (env.fail msg).1.flat) ∧
    (⟨.constraintI true, false⟩ : Item) ∈ (env.fail msg).1.flat ∧
    (⟨.solveI true, false⟩ : Item) ∈ (env.fail msg).1.flat ∧
    (∀ i ∈ (env.fail msg).1.flat, i.removed = true ∨
      i = (⟨.constraintI true, false⟩ : Item) ∨
      i = (⟨.solveI true, false⟩ : Item)) ∧
    (env.fail msg).1.output.filter (fun i => !i.removed) =
      [⟨.outputI true, false⟩] := by
  have hfl : (env.fail msg).1.flat =
      env.flat.map Item.remove ++
        [⟨.constraintI true, false⟩, ⟨.solveI true, false⟩] := by
    simp [EnvI.fail, h, EnvI.addWarning]
    split <;> split <;> rfl
  have hout : (env.fail msg).1.output =
      env.output.map Item.remove ++ [⟨.outputI true, false⟩] := by
    simp [EnvI.fail, h, EnvI.addWarning]
    split <;> split <;> rfl
  refine ⟨by simp [EnvI.fail, h], ?_, ?_, ?_, ?_, ?_, ?_⟩
  · simp [EnvI.fail, h, EnvI.addWarning]
  · intro i hi
    rw [hfl]
    exact List.mem_append_left _ (List.mem_map_of_mem _ hi)
  · rw [hfl]; simp
  · rw [hfl]; simp
  · intro i hi
    rw [hfl] at hi
    rcases List.mem_append.1 hi with hm | hm
    · obtain ⟨j, _, rfl⟩ := List.mem_map.1 hm
      exact Or.inl rfl
    · simp at hm
      rcases hm with rfl | rfl
      · exact Or.inr (Or.inl rfl)
      · exact Or.inr (Or.inr rfl)
  · rw [hout]
    rw [List.filter_append]
    have : (env.output.map Item.remove).filter (fun i => !i.removed) = [] := by
      rw [List.filter_eq_nil_iff]
      intro a ha
      obtain ⟨j, _, rfl⟩ := List.mem_map.1 ha
      simp [Item.remove]
    rw [this]
    simp

/-- Witness for the C3 theorem on a small fresh environment with one
flat item and one output item. -/
theorem fail_produces_skeleton_witness :
    (((⟨false, [⟨.otherI 0, false⟩], [⟨.outputI false, false⟩], [], 0⟩ :
        EnvI).fail "bad").2 = true ∧
      ((⟨false, [⟨.otherI 0, false⟩], [⟨.outputI false, false⟩], [], 0⟩ :
        EnvI).fail "bad").1.failed = true ∧
      (∀ i ∈ (⟨false, [⟨.otherI 0, false⟩], [⟨.outputI false, false⟩], [],
          0⟩ : EnvI).flat,
        Item.remove i ∈
          ((⟨false, [⟨.otherI 0, false⟩], [⟨.outputI false, false⟩], [], 0⟩ :
            EnvI).fail "bad").1.flat) ∧
      (⟨.constraintI true, false⟩ : Item) ∈
        ((⟨false, [⟨.otherI 0, false⟩], [⟨.outputI false, false⟩], [], 0⟩ :
          EnvI).fail "bad").1.flat ∧
      (⟨.solveI true, false⟩ : Item) ∈
        ((⟨false, [⟨.otherI 0, false⟩], [⟨.outputI false, false⟩], [], 0⟩ :
          EnvI).fail "bad").1.flat ∧
      (∀ i ∈ ((⟨false, [⟨.otherI 0, false⟩], [⟨.outputI false, false⟩], [],
          0⟩ : EnvI).fail "bad").1.flat, i.removed = true ∨
        i = (⟨.constraintI true, false⟩ : Item) ∨
        i = (⟨.solveI true, false⟩ : Item)) ∧
      ((⟨false, [⟨.otherI 0, false⟩], [⟨.outputI false, false⟩], [], 0⟩ :
        EnvI).fail "bad").1.output.filter (fun i => !i.removed) =
        [⟨.outputI true, false⟩]) :=
  fail_produces_skeleton
    ⟨false, [⟨.otherI 0, false⟩], [⟨.outputI false, false⟩], [], 0⟩
    "bad" rfl

/-- C10: on an already-failed environment, `fail` is a no-op: the
environment (warnings, flat model, output model included) is unchanged
and `ModelInconsistent` is not thrown, so the post-fail skeleton is
produced exactly once. -/
theorem fail_noop_when_already_failed (env : EnvI) (msg : String)
    (h : env.failed = true) : env.fail msg = (env, false) := by
  simp [EnvI.fail, h]

/-- Witness for the C10 theorem on a concrete failed environment. -/
theorem fail_noop_when_already_failed_witness :
    (⟨true, [⟨.constraintI true, false⟩], [], ["w"], 0⟩ : EnvI).fail "x" =
      (⟨true, [⟨.constraintI true, false⟩], [], ["w"], 0⟩, false) :=
  fail_noop_when_already_failed
    ⟨true, [⟨.constraintI true, false⟩], [], ["w"], 0⟩ "x" rfl

/-- C4: the scalar par branch of `flatten_par` evaluates `e` with the
parameter evaluator; if evaluation raises undefined, the returned
result is the type's dummy value and the definedness witness is
`false`; a successful non-false result is bound with definedness
`true`; and in ROOT context with target `varTrue` a par bool result of
`false` fails the whole model (`ModelInconsistent`). -/
theorem flatten_par_undef_and_root_false (env : EnvI) (ctxB : BCtx)
    (r : RTarget) (e : Expr) :
    (∀ m, eval_par e = .error (.resultUndefined m) →
      flatten_par_scalar env ctxB r e =
        (env, .ok (create_dummy_value e.ty, .boolLit false))) ∧
    (∀ result, eval_par e = .ok result → isFalseLit result = false →
      flatten_par_scalar env ctxB r e =
        (env, .ok (bindR r result, .boolLit true))) ∧
    (env.failed = false → eval_par e = .ok (.boolLit false) →
      flatten_par_scalar env .root .varTrue e =
        ((env.fail "expression evaluated to false").1,
          .error .modelInconsistent)) := by
  refine ⟨?_, ?_, ?_⟩
  · intro m hm
    simp [flatten_par_scalar, hm]
  · intro result hr hfl
    simp [flatten_par_scalar, hr, hfl]
  · intro hf he
    simp [flatten_par_scalar, he, Expr.ty, isParE, isFalseLit, EnvI.fail, hf]

/-- Witness for the C4 theorem: `1 div 0` produces the int dummy `0`
with definedness `false`; the root-context constraint `false` fails the
model. -/
theorem flatten_par_undef_and_root_false_witness :
    flatten_par_scalar ⟨false, [], [], [], 0⟩ .pos .noTarget
        (.binOp .tint .idiv (.intLit 1) (.intLit 0)) =
      (⟨false, [], [], [], 0⟩,
        .ok (create_dummy_value
          (Expr.binOp .tint .idiv (.intLit 1) (.intLit 0)).ty,
          .boolLit false)) ∧
    flatten_par_scalar ⟨false, [], [], [], 0⟩ .pos .noTarget
        (.intLit 7) =
      (⟨false, [], [], [], 0⟩, .ok (bindR .noTarget (.intLit 7),
        .boolLit true)) ∧
    flatten_par_scalar ⟨false, [], [], [], 0⟩ .root .varTrue
        (.boolLit false) =
      (((⟨false, [], [], [], 0⟩ : EnvI).fail
          "expression evaluated to false").1,
        .error .modelInconsistent) :=
  ⟨(flatten_par_undef_and_root_false _ _ _ _).1 "division by zero"
      (by simp [eval_par, eval_int_internal, eval_int_switch, Expr.ty,
        isParE, Bind.bind, Except.bind, Except.map]),
   (flatten_par_undef_and_root_false _ _ _ _).2.1 (.intLit 7)
      (eval_par_intLit 7) rfl,
   (flatten_par_undef_and_root_false ⟨false, [], [], [], 0⟩ .root
      .varTrue (.boolLit false)).2.2 rfl (eval_par_boolLit false)⟩

/-- C5: for an integer `div`/`mod` over operands with valid finite
bounds, `compute_int_bounds` returns the min and max of the four corner
quotients (resp. remainders) after replacing a zero lower corner by `1`
and a zero upper corner by `-1`; and expression kinds not covered by
the visitor (float/bool/string/set literals, uncovered operators such
as `^`) give `[0,0]` with `valid == false`. -/
theorem compute_int_bounds_div_mod_corners (e0 e1 : Expr)
    (l0 u0 l1 u1 : Int)
    (h0 : cib e0 = .ok (some (.fin l0, .fin u0)))
    (h1 : cib e1 = .ok (some (.fin l1, .fin u1))) :
    (isParE e0 = false ∨ isParE e1 = false →
      compute_int_bounds (.binOp .tint .idiv e0 e1) =
        .ok ⟨.fin (min ((if l0 = 0 then 1 else l0).tdiv
                  (if l1 = 0 then 1 else l1))
                (min ((if l0 = 0 then 1 else l0).tdiv
                    (if u1 = 0 then -1 else u1))
                  (min ((if u0 = 0 then -1 else u0).tdiv
                      (if l1 = 0 then 1 else l1))
                    ((if u0 = 0 then -1 else u0).tdiv
                      (if u1 = 0 then -1 else u1))))),
             .fin (max ((if l0 = 0 then 1 else l0).tdiv
                  (if l1 = 0 then 1 else l1))
                (max ((if l0 = 0 then 1 else l0).tdiv
                    (if u1 = 0 then -1 else u1))
                  (max ((if u0 = 0 then -1 else u0).tdiv
                      (if l1 = 0 then 1 else l1))
                    ((if u0 = 0 then -1 else u0).tdiv
                      (if u1 = 0 then -1 else u1))))),
             true⟩) ∧
    (isParE e0 = false ∨ isParE e1 = false →
      compute_int_bounds (.binOp .tint .mod e0 e1) =
        .ok ⟨.fin (min ((if l0 = 0 then 1 else l0).tmod
                  (if l1 = 0 then 1 else l1))
                (min ((if l0 = 0 then 1 else l0).tmod
                    (if u1 = 0 then -1 else u1))
                  (min ((if u0 = 0 then -1 else u0).tmod
                      (if l1 = 0 then 1 else l1))
                    ((if u0 = 0 then -1 else u0).tmod
                      (if u1 = 0 then -1 else u1))))),
             .fin (max ((if l0 = 0 then 1 else l0).tmod
                  (if l1 = 0 then 1 else l1))
                (max ((if l0 = 0 then 1 else l0).tmod
                    (if u1 = 0 then -1 else u1))
                  (max ((if u0 = 0 then -1 else u0).tmod
                      (if l1 = 0 then 1 else l1))
                    ((if u0 = 0 then -1 else u0).tmod
                      (if u1 = 0 then -1 else u1))))),
             true⟩) ∧
    (∀ x : Rat, compute_int_bounds (.floatLit x) =
      .ok ⟨.fin 0, .fin 0, false⟩) ∧
    (∀ b : Bool, compute_int_bounds (.boolLit b) =
      .ok ⟨.fin 0, .fin 0, false⟩) ∧
    (∀ s : String, compute_int_bounds (.stringLit s) =
      .ok ⟨.fin 0, .fin 0, false⟩) ∧
    (∀ s : List (Int × Int), compute_int_bounds (.setLit s) =
      .ok ⟨.fin 0, .fin 0, false⟩) ∧
    (isParE e0 = false ∨ isParE e1 = false →
      compute_int_bounds (.binOp .tint .pow e0 e1) =
        .ok ⟨.fin 0, .fin 0, false⟩) := by
  have hpar : ∀ op : BOp, isParE e0 = false ∨ isParE e1 = false →
      isParE (Expr.binOp .tint op e0 e1) = false := by
    intro op h
    rcases h with h | h <;> simp [isParE, h]
  refine ⟨?_, ?_, ?_, ?_, ?_, ?_, ?_⟩
  · intro h
    simp [compute_int_bounds, cib, cib_switch, hpar _ h, h0, h1,
      vBinOpBounds, Bind.bind, Except.bind, Pure.pure, Except.pure]
  · intro h
    simp [compute_int_bounds, cib, cib_switch, hpar _ h, h0, h1,
      vBinOpBounds, Bind.bind, Except.bind, Pure.pure, Except.pure]
  · intro x
    simp [compute_int_bounds, cib, eval_par_floatLit, Expr.ty, isParE,
      Bind.bind, Except.bind, Pure.pure, Except.pure]
  · intro b
    simp [compute_int_bounds, cib, eval_par_boolLit, Expr.ty, isParE,
      Bind.bind, Except.bind, Pure.pure, Except.pure]
  · intro s
    simp [compute_int_bounds, cib, eval_par_stringLit, Expr.ty, isParE,
      Bind.bind, Except.bind, Pure.pure, Except.pure]
  · intro s
    simp [compute_int_bounds, cib, eval_par_setLit, Expr.ty, isParE,
      Bind.bind, Except.bind, Pure.pure, Except.pure]
  · intro h
    simp [compute_int_bounds, cib, cib_switch, hpar _ h, h0, h1,
      vBinOpBounds, Bind.bind, Except.bind, Pure.pure, Except.pure]

/-- Witness for the C5 theorem: `x div y` and `x mod y` for variables
with domains `1..3` and `0..2` (a zero lower corner on the divisor),
a float literal, and a variable power. -/
theorem compute_int_bounds_div_mod_corners_witness :
    compute_int_bounds (.binOp .tint .idiv (.varId (some [(1, 3)]))
        (.varId (some [(0, 2)]))) = .ok ⟨.fin 0, .fin 3, true⟩ ∧
    compute_int_bounds (.binOp .tint .mod (.varId (some [(1, 3)]))
        (.varId (some [(0, 2)]))) = .ok ⟨.fin 0, .fin 1, true⟩ ∧
    compute_int_bounds (.floatLit (1 / 2)) =
      .ok ⟨.fin 0, .fin 0, false⟩ ∧
    compute_int_bounds (.binOp .tint .pow (.varId (some [(1, 3)]))
        (.varId (some [(0, 2)]))) = .ok ⟨.fin 0, .fin 0, false⟩ := by
  have h0 : cib (.varId (some [(1, 3)])) =
      .ok (some (.fin 1, .fin 3)) := by
    simp [cib, cib_switch, isParE, isvMin, isvMax, Pure.pure, Except.pure]
  have h1 : cib (.varId (some [(0, 2)])) =
      .ok (some (.fin 0, .fin 2)) := by
    simp [cib, cib_switch, isParE, isvMin, isvMax, Pure.pure, Except.pure]
  refine ⟨?_, ?_, ?_, ?_⟩
  · have := (compute_int_bounds_div_mod_corners _ _ 1 3 0 2 h0 h1).1
      (Or.inl rfl)
    rw [this]
    norm_num [Int.tdiv]
  · have := (compute_int_bounds_div_mod_corners _ _ 1 3 0 2 h0 h1).2.1
      (Or.inl rfl)
    rw [this]
    norm_num [Int.tmod]
  · exact (compute_int_bounds_div_mod_corners (.varId (some [(1, 3)]))
      (.varId (some [(0, 2)])) 1 3 0 2 h0 h1).2.2.1 (1 / 2)
  · exact (compute_int_bounds_div_mod_corners _ _ 1 3 0 2 h0 h1).2.2.2.2.2.2
      (Or.inl rfl)

/-- C6: under a surrounding `sum` call, a comprehension body guarded by
a var where-condition is rewritten to `bool2int(where) * body` when the
body is par with int base type, to `bool2float(where) * body` when the
body is par with float type, and to `if where then body else 0 endif`
when the body is var. -/
theorem comp_sum_body_rewrite (cond genExp : Expr) :
    (isParE genExp = true → genExp.ty.btIsInt = true →
      rewriteCompBody (some "sum") cond genExp =
        .binOp genExp.ty.present .mult
          (.call .tint "bool2int" [cond]) genExp) ∧
    (isParE genExp = true → genExp.ty = .tfloat →
      rewriteCompBody (some "sum") cond genExp =
        .binOp genExp.ty.present .mult
          (.call .tfloat "bool2float" [cond]) genExp) ∧
    (isParE genExp = false →
      rewriteCompBody (some "sum") cond genExp =
        .ite genExp.ty.present cond genExp (.intLit 0)) := by
  refine ⟨?_, ?_, ?_⟩
  · intro hp hbt
    simp [rewriteCompBody, hp, hbt]
  · intro hp hty
    simp [rewriteCompBody, hp, hty, Ty.btIsInt]
  · intro hp
    simp [rewriteCompBody, hp]

/-- Witness for the C6 theorem: a par int body, a par float body, and a
var body under `sum`. -/
theorem comp_sum_body_rewrite_witness :
    rewriteCompBody (some "sum") (.boolLit true) (.intLit 3) =
      .binOp (Expr.intLit 3).ty.present .mult
        (.call .tint "bool2int" [.boolLit true]) (.intLit 3) ∧
    rewriteCompBody (some "sum") (.boolLit true) (.floatLit 1) =
      .binOp (Expr.floatLit 1).ty.present .mult
        (.call .tfloat "bool2float" [.boolLit true]) (.floatLit 1) ∧
    rewriteCompBody (some "sum") (.boolLit true) (.varId none) =
      .ite (Expr.varId none).ty.present (.boolLit true) (.varId none)
        (.intLit 0) :=
  ⟨(comp_sum_body_rewrite _ _).1 rfl rfl,
   (comp_sum_body_rewrite _ _).2.1 rfl rfl,
   (comp_sum_body_rewrite _ _).2.2 rfl⟩

/-- C7: a par array access of optional type with an absent optional
index yields absent; an access whose (non-absent) indices leave some
dimension's index set raises the undefinedness signal carrying
`errorMessage`; that message names the offending dimension for arrays
of more than one dimension, and renders the index set and the given
index through the enum's names when the dimension's index set is
enum-typed. -/
theorem eval_arrayaccess_absent_oob (ets : Nat → Int → String)
    (acc : AAccess) :
    (acc.tyIsOpt = true →
      ∀ pre post, acc.idx = pre ++ Expr.absent :: post →
        (∀ p ∈ pre, p.ty ≠ .toptInt) →
        eval_arrayaccess ets acc = .ok .absent) ∧
    (acc.tyIsOpt = false →
      ∀ f, array_access_core 0 0 acc.dims acc.idx = .ok (.inl f) →
        eval_arrayaccess ets acc =
          .error (.resultUndefined
            (errorMessage ets f acc.dims.length acc.name acc.enumIds))) ∧
    (∀ f : AccessFail, ∀ nd : Nat, ∀ name : Option String,
      ∀ enumIds : List Nat, 1 < nd → enumIds.getD f.dim 0 = 0 →
      errorMessage ets f nd name enumIds =
        "array access out of bounds, "
          ++ ("dimension " ++ toString (f.dim + 1) ++ " of ") ++ "array"
          ++ (match name with
              | some n => " `" ++ n ++ "'"
              | none => "")
          ++ (" has index set " ++ toString f.dimMin ++ ".."
              ++ toString f.dimMax ++ ", but given index is "
              ++ toString f.idx)) ∧
    (∀ f : AccessFail, ∀ nd : Nat, ∀ name : Option String,
      ∀ enumIds : List Nat, ∀ eid : Nat, 1 < nd →
      enumIds.getD f.dim 0 = eid → eid ≠ 0 →
      errorMessage ets f nd name enumIds =
        "array access out of bounds, "
          ++ ("dimension " ++ toString (f.dim + 1) ++ " of ") ++ "array"
          ++ (match name with
              | some n => " `" ++ n ++ "'"
              | none => "")
          ++ (" has index set " ++ ets eid f.dimMin ++ ".."
              ++ ets eid f.dimMax ++ ", but given index is "
              ++ ets eid f.idx)) := by
  refine ⟨?_, ?_, ?_, ?_⟩
  · intro hopt pre post hidx hpre
    have habs : absentCheck acc.idx = .ok true := by
      rw [hidx]
      clear hidx
      induction pre with
      | nil =>
        simp [absentCheck, Expr.ty, eval_par_absent, Bind.bind,
          Except.bind, Pure.pure, Except.pure]
      | cons p ps ihp =>
        have hp : p.ty ≠ Ty.toptInt := hpre p (by simp)
        rw [List.cons_append, absentCheck]
        simp [hp]
        exact ihp (fun q hq => hpre q (by simp [hq]))
    simp [eval_arrayaccess, hopt, habs, Bind.bind, Except.bind,
      Pure.pure, Except.pure]
  · intro hopt f hcore
    simp [eval_arrayaccess, hopt, hcore, Bind.bind, Except.bind,
      Pure.pure, Except.pure]
  · intro f nd name enumIds hnd heid
    simp only [List.getD_eq_getElem?_getD] at heid
    simp [errorMessage, hnd, heid]
  · intro f nd name enumIds eid hnd heid heid0
    simp only [List.getD_eq_getElem?_getD] at heid
    simp [errorMessage, hnd, heid, heid0]

/-- Witness for the C7 theorem: an opt access with an absent second
index; a 1-D out-of-bounds access on index set `1..3` with index `5`;
and the message for a failing second dimension with and without an enum
index set. -/
theorem eval_arrayaccess_absent_oob_witness :
    eval_arrayaccess (fun _ _ => "")
        ⟨[.intLit 7], [(1, 1), (1, 1)], [], none, true,
          [.intLit 1, .absent]⟩ = .ok .absent ∧
    eval_arrayaccess (fun _ _ => "")
        ⟨[.intLit 7, .intLit 8, .intLit 9], [(1, 3)], [], some "a", false,
          [.intLit 5]⟩ =
      .error (.resultUndefined (errorMessage (fun _ _ => "") ⟨0, 1, 3, 5⟩ 1
        (some "a") [])) ∧
    errorMessage (fun _ _ => "") ⟨1, 1, 3, 5⟩ 2 none [] =
      "array access out of bounds, "
        ++ ("dimension " ++ toString (1 + 1) ++ " of ") ++ "array"
        ++ ""
        ++ (" has index set " ++ toString (1 : Int) ++ ".."
            ++ toString (3 : Int) ++ ", but given index is "
            ++ toString (5 : Int)) ∧
    errorMessage (fun e i => "E" ++ toString e ++ "_" ++ toString i)
        ⟨1, 1, 3, 5⟩ 2 none [0, 4] =
      "array access out of bounds, "
        ++ ("dimension " ++ toString (1 + 1) ++ " of ") ++ "array"
        ++ ""
        ++ (" has index set "
            ++ (fun (e : Nat) (i : Int) =>
                  "E" ++ toString e ++ "_" ++ toString i) 4 1 ++ ".."
            ++ (fun (e : Nat) (i : Int) =>
                  "E" ++ toString e ++ "_" ++ toString i) 4 3
            ++ ", but given index is "
            ++ (fun (e : Nat) (i : Int) =>
                  "E" ++ toString e ++ "_" ++ toString i) 4 5) :=
  ⟨(eval_arrayaccess_absent_oob _ _).1 rfl [.intLit 1] [] rfl
      (by intro p hp; simp at hp; subst hp; simp [Expr.ty]),
   (eval_arrayaccess_absent_oob _ _).2.1 rfl ⟨0, 1, 3, 5⟩
      (by simp [array_access_core, eval_int_internal, eval_int_switch,
        Expr.ty, Bind.bind, Except.bind]),
   (eval_arrayaccess_absent_oob (fun _ _ => "")
      ⟨[], [], [], none, false, []⟩).2.2.1 ⟨1, 1, 3, 5⟩ 2 none []
      (by norm_num) rfl,
   (eval_arrayaccess_absent_oob
      (fun e i => "E" ++ toString e ++ "_" ++ toString i)
      ⟨[], [], [], none, false, []⟩).2.2.2 ⟨1, 1, 3, 5⟩ 2 none [0, 4] 4
      (by norm_num) rfl (by norm_num)⟩

/-- C8: a let-bound `VarDecl` without right-hand side flattened in a
non-positive (NEG or MIX) boolean context without the `promise_total`
annotation is a hard `FlatteningError`; with `promise_total`, or in
ROOT/POS context, a fresh flat variable is introduced (a new `VarDeclI`
appended to the flat model). -/
theorem flatten_let_novalue_dichotomy (env : EnvI) (ctxB : BCtx)
    (pt : Bool) :
    ((ctxB = .neg ∨ ctxB = .mix) → pt = false →
      flatten_let_novalue env ctxB pt =
        .error (.flatteningError "free variable in non-positive context")) ∧
    (pt = true ∨ ctxB = .root ∨ ctxB = .pos →
      flatten_let_novalue env ctxB pt =
        .ok ({ env with
                cnt := env.cnt + 1
                flat := env.flat ++ [⟨.varDeclI env.cnt, false⟩] },
             env.cnt)) := by
  constructor
  · intro hc hp
    simp [flatten_let_novalue, hc, hp]
  · intro h
    rcases h with h | h | h
    · simp [flatten_let_novalue, h, new_vardecl]
    · subst h; simp [flatten_let_novalue, new_vardecl]
    · subst h; simp [flatten_let_novalue, new_vardecl]

/-- Witness for the C8 theorem: the hard error in NEG context without
`promise_total`, and the fresh variable in MIX context with
`promise_total`. -/
theorem flatten_let_novalue_dichotomy_witness :
    flatten_let_novalue ⟨false, [], [], [], 0⟩ .neg false =
      .error (.flatteningError "free variable in non-positive context") ∧
    flatten_let_novalue ⟨false, [], [], [], 5⟩ .mix true =
      .ok ({ (⟨false, [], [], [], 5⟩ : EnvI) with
              cnt := 5 + 1
              flat := [] ++ [⟨.varDeclI 5, false⟩] }, 5) :=
  ⟨(flatten_let_novalue_dichotomy _ _ _).1 (Or.inl rfl) rfl,
   (flatten_let_novalue_dichotomy ⟨false, [], [], [], 5⟩ .mix true).2
      (Or.inl rfl)⟩

/-- C9: in a JSON string token, the lexer translates the escape
sequences `\n`, `\t`, `\"` and `\\` to newline, tab, double quote and
backslash, and keeps any other escaped character verbatim, prefixed by
the backslash. -/
theorem json_string_escapes (rest : List Char) (acc : String) :
    readStringToken ('\\' :: 'n' :: rest) .sString acc =
      readStringToken rest .sString (acc ++ "\n") ∧
    readStringToken ('\\' :: 't' :: rest) .sString acc =
      readStringToken rest .sString (acc ++ "\t") ∧
    readStringToken ('\\' :: '"' :: rest) .sString acc =
      readStringToken rest .sString (acc ++ "\"") ∧
    readStringToken ('\\' :: '\\' :: rest) .sString acc =
      readStringToken rest .sString (acc ++ "\\") ∧
    (∀ c : Char, c ≠ 'n' → c ≠ 't' → c ≠ '"' → c ≠ '\\' →
      readStringToken ('\\' :: c :: rest) .sString acc =
        readStringToken rest .sString ((acc ++ "\\").push c)) := by
  refine ⟨?_, ?_, ?_, ?_, ?_⟩
  · simp [readStringToken]
  · simp [readStringToken]
  · simp [readStringToken]
  · simp [readStringToken]
  · intro c h1 h2 h3 h4
    simp [readStringToken, h1, h2, h3, h4]

/-- Witness for the C9 theorem: the unknown escape `\x` is kept
verbatim. -/
theorem json_string_escapes_witness :
    readStringToken ('\\' :: 'n' :: ['"']) .sString "a" =
      readStringToken ['"'] .sString ("a" ++ "\n") ∧
    readStringToken ('\\' :: 'x' :: ['"']) .sString "a" =
      readStringToken ['"'] .sString (("a" ++ "\\").push 'x') :=
  ⟨(json_string_escapes ['"'] "a").1,
   (json_string_escapes ['"'] "a").2.2.2.2 'x' (by decide) (by decide)
      (by decide) (by decide)⟩

end MiniZinc
